import Mathlib

/-!
Shallow embedding of `src/tools/azure_vm_zone_costs.py` (price-record
selection and monthly cost aggregation for a primary/DR Azure deployment).

Modelling conventions:
* A JSON price record is a structure of `Option` fields; Python's
  `r.get(k)` returning `None` is `none`, `r.get(k) or ""` is `Option.getD ""`
  and `r.get("retailPrice") or 0.0` is `Option.getD 0`.
* Python floats are modelled as rationals `ℚ`; monetary arithmetic in the
  script is plain sums and products, which ℚ mirrors exactly.
* Python's `needle in hay` substring test is `strHas`, `.lower()` is
  `lowerStr`, `.upper()` is `upperStr`, `.strip()` is `trimStr` and
  `.replace(pat, "")` is `removeAll` (all occurrences, left to right) —
  all written over `List Char` so they evaluate inside the kernel.
* `list.sort(key=price, reverse=True)` followed by `list[0]`: Python's sort
  is stable and `reverse=True` keeps the original order of equal keys, so the
  selected element is the first one attaining the maximal key; `argmaxAcc`
  computes exactly that (strict comparison keeps the earlier element on
  ties). Dually `argminAcc` models ascending sort followed by `list[0]`.
* Network access (`fetch_prices`) is an oracle `Fetch` mapping a `$filter`
  expression and a currency code to the fetched record list; the filter
  strings are built exactly as the Python f-strings build them.
* `raise RuntimeError(msg)` is `Except.error msg`; a Python dict of floats
  with string keys (insertion ordered) is an association list
  `List (String × ℚ)`.
-/

namespace AzureVmZoneCosts

/-- One record of the Azure Retail Prices API, with the fields the script
reads. Every field is optional: the JSON may omit any of them. -/
structure PriceRecord where
  type : Option String
  unitOfMeasure : Option String
  productName : Option String
  skuName : Option String
  armSkuName : Option String
  meterName : Option String
  retailPrice : Option ℚ
deriving DecidableEq

/-- ASCII lower-casing, Python's `str.lower()` on the catalog's data. -/
def lowerStr (s : String) : String := ⟨s.data.map Char.toLower⟩

/-- ASCII upper-casing, Python's `str.upper()` on the catalog's data. -/
def upperStr (s : String) : String := ⟨s.data.map Char.toUpper⟩

/-- Whether `needle` occurs as a contiguous sublist of the remaining hay:
the recursion behind Python's `needle in hay`. -/
def containsAux (needle : List Char) : List Char → Bool
  | [] => needle.isEmpty
  | c :: rest => needle.isPrefixOf (c :: rest) || containsAux needle rest

/-- Python's substring test `needle in hay`. -/
def strHas (hay needle : String) : Bool := containsAux needle.data hay.data

/-- Fuelled worker for `removeAll`: each step either keeps one character or
skips a whole occurrence of `pat`, so `hay.length` fuel always suffices. -/
def removeAllFuel (pat : List Char) : Nat → List Char → List Char
  | 0, l => l
  | _ + 1, [] => []
  | n + 1, c :: rest =>
    if pat.isPrefixOf (c :: rest) then removeAllFuel pat n (List.drop pat.length (c :: rest))
    else c :: removeAllFuel pat n rest

/-- Python's `hay.replace(pat, "")`: delete every occurrence of `pat`,
scanning left to right without overlap. -/
def removeAll (pat hay : List Char) : List Char := removeAllFuel pat hay.length hay

/-- Python's `str.strip()`: drop leading and trailing whitespace. -/
def trimStr (s : String) : String :=
  ⟨((s.data.dropWhile Char.isWhitespace).reverse.dropWhile Char.isWhitespace).reverse⟩

/-- The unit price the script uses everywhere: `r.get("retailPrice") or 0.0`,
a missing price counting as zero. -/
def priceOf (r : PriceRecord) : ℚ := r.retailPrice.getD 0

/-- First element of `b :: l` attaining the maximal value of `f`: the
result of Python's stable `sort(key=f, reverse=True)` followed by `[0]`. -/
def argmaxAcc {α : Type} (f : α → ℚ) (b : α) : List α → α
  | [] => b
  | x :: xs => argmaxAcc f (if f b < f x then x else b) xs

/-- First element of `b :: l` attaining the minimal value of `f`: the
result of Python's stable ascending `sort(key=f)` followed by `[0]`. -/
def argminAcc {α : Type} (f : α → ℚ) (b : α) : List α → α
  | [] => b
  | x :: xs => argminAcc f (if f x < f b then x else b) xs

/-- `sort(key=f, reverse=True)` then `[0]` on a possibly empty list. -/
def pickMax {α : Type} (f : α → ℚ) : List α → Option α
  | [] => none
  | r :: rs => some (argmaxAcc f r rs)

/-- `sort(key=f)` then `[0]` on a possibly empty list. -/
def pickMin {α : Type} (f : α → ℚ) : List α → Option α
  | [] => none
  | r :: rs => some (argminAcc f r rs)

/-- The inner `is_match` of `select_vm_price`, its early-return chain
flattened into one boolean conjunction: Consumption type, hourly unit,
`Windows` in the product name when `windows` is set, and no Spot or Low
Priority meter. -/
def vm_is_match (windows : Bool) (r : PriceRecord) : Bool :=
  decide (r.type = some "Consumption")
    && strHas (lowerStr (r.unitOfMeasure.getD "")) "hour"
    && (!windows || strHas (r.productName.getD "") "Windows")
    && !(strHas (lowerStr (r.skuName.getD "")) "spot"
        || strHas (lowerStr (r.meterName.getD "")) "spot"
        || strHas (lowerStr (r.meterName.getD "")) "low priority")

/-- `select_vm_price`: filter by `is_match`, return `None` on no match,
else the highest-priced match (first such, by sort stability). -/
def select_vm_price (records : List PriceRecord) (windows : Bool) : Option PriceRecord :=
  pickMax priceOf (records.filter (vm_is_match windows))

/-- The inner `is_match` of `select_disk_price`, applied after the
redundancy argument has been lower-cased: Consumption type, monthly unit,
`Premium SSD Managed Disks` product, and the meter name naming the
requested redundancy tier. -/
def disk_is_match (redundancy : String) (r : PriceRecord) : Bool :=
  decide (r.type = some "Consumption")
    && strHas (lowerStr (r.unitOfMeasure.getD "")) "month"
    && strHas (r.productName.getD "") "Premium SSD Managed Disks"
    && ((decide (redundancy = "lrs") && strHas (lowerStr (r.meterName.getD "")) "lrs")
        || (decide (redundancy = "zrs") && strHas (lowerStr (r.meterName.getD "")) "zrs"))

/-- `select_disk_price`: lower-case the redundancy, filter by `is_match`,
return `None` on no match, else the highest-priced match. -/
def select_disk_price (records : List PriceRecord) (redundancy : String) : Option PriceRecord :=
  pickMax priceOf (records.filter (disk_is_match (lowerStr redundancy)))

/-- The paginated fetcher `fetch_prices`, abstracted as an oracle from a
`$filter` expression and a currency code to the combined record list. -/
def Fetch : Type := String → String → List PriceRecord

/-- The candidate test inside `find_interzone_bandwidth_rate`: GB unit,
bandwidth product, zone-labelled meter (all compared lower-cased). -/
def iz_candidate (r : PriceRecord) : Bool :=
  strHas (lowerStr (r.unitOfMeasure.getD "")) "gb"
    && strHas (lowerStr (r.productName.getD "")) "bandwidth"
    && (strHas (lowerStr (r.meterName.getD "")) "zone"
        || strHas (lowerStr (r.meterName.getD "")) "inter-zone"
        || strHas (lowerStr (r.meterName.getD "")) "inter zone")

/-- The two `$filter` expressions `find_interzone_bandwidth_rate` tries, in
the order the script lists them. -/
def iz_filters (region : String) : List String :=
  ["serviceFamily eq 'Networking' and armRegionName eq '" ++ region
      ++ "' and priceType eq 'Consumption'",
    "serviceName eq 'Bandwidth' and armRegionName eq '" ++ region
      ++ "' and priceType eq 'Consumption'"]

/-- The `for f in filters` loop of `find_interzone_bandwidth_rate`: fetch,
filter to candidates, and on the first non-empty candidate list return its
lowest-priced element. -/
def find_iz_aux (fetch : Fetch) (currency : String) : List String → Option PriceRecord
  | [] => none
  | f :: fs =>
    match (fetch f currency).filter iz_candidate with
    | [] => find_iz_aux fetch currency fs
    | c :: cs => some (argminAcc priceOf c cs)

/-- `find_interzone_bandwidth_rate`. -/
def find_interzone_bandwidth_rate (fetch : Fetch) (region currency : String) :
    Option PriceRecord :=
  find_iz_aux fetch currency (iz_filters region)

/-- The broad VM `$filter` expression `get_vm_hourly_price` queries. -/
def vm_filter_expr (region : String) : String :=
  "serviceName eq 'Virtual Machines' and armRegionName eq '" ++ region
    ++ "' and priceType eq 'Consumption'"

/-- `vm_size.lower().replace("standard_", "").strip()` from
`get_vm_hourly_price`. -/
def normalize_size (vm_size : String) : String :=
  trimStr ⟨removeAll "standard_".data (lowerStr vm_size).data⟩

/-- The narrowing test of `get_vm_hourly_price`: the normalized size occurs
in the lower-cased `skuName` or `armSkuName`. -/
def size_keeps (target : String) (r : PriceRecord) : Bool :=
  strHas (lowerStr (r.skuName.getD "")) target
    || strHas (lowerStr (r.armSkuName.getD "")) target

/-- `get_vm_hourly_price`: broad region fetch, narrow to the requested size,
return `None` on an empty narrowing, else delegate to `select_vm_price`. -/
def get_vm_hourly_price (fetch : Fetch) (region vm_size : String) (windows : Bool)
    (currency : String) : Option PriceRecord :=
  let filtered :=
    (fetch (vm_filter_expr region) currency).filter (size_keeps (normalize_size vm_size))
  if filtered.isEmpty then none else select_vm_price filtered windows

/-- The storage `$filter` expression `get_disk_monthly_price` queries, the
disk SKU upper-cased into it. -/
def disk_filter_expr (region disk_sku : String) : String :=
  "serviceFamily eq 'Storage' and armRegionName eq '" ++ region
    ++ "' and priceType eq 'Consumption' and skuName eq '" ++ upperStr disk_sku ++ "'"

/-- `get_disk_monthly_price`: fetch the storage records for the SKU and
delegate to `select_disk_price`. -/
def get_disk_monthly_price (fetch : Fetch) (region disk_sku redundancy currency : String) :
    Option PriceRecord :=
  select_disk_price (fetch (disk_filter_expr region disk_sku) currency) redundancy

/-- The message of the `RuntimeError` raised when no VM price is found. -/
def vm_error_msg (vm_size region : String) (windows : Bool) : String :=
  "Could not find VM price for " ++ vm_size ++ " in " ++ region ++ " (windows="
    ++ (if windows then "True" else "False") ++ ")."

/-- The message of the `RuntimeError` raised when no disk price is found. -/
def disk_error_msg (disk_sku redundancy region : String) : String :=
  "Could not find disk price for " ++ disk_sku ++ " " ++ upperStr redundancy
    ++ " in " ++ region ++ "."

/-- `compute_primary_costs`: resolve the VM and disk prices (failing hard
when either is missing), add `compute_vm_month` and `os_disks_month`, and
when inter-zone GB is positive add `interzone_data_month` — `0.0` when no
inter-zone rate is found. Returns the total and the insertion-ordered
breakdown. -/
def compute_primary_costs (fetch : Fetch) (region vm_size : String) (windows : Bool)
    (instances : ℤ) (disk_sku disk_redundancy currency : String) (interzone_gb : ℚ) :
    Except String (ℚ × List (String × ℚ)) :=
  match get_vm_hourly_price fetch region vm_size windows currency with
  | none => .error (vm_error_msg vm_size region windows)
  | some vm =>
    let vm_month : ℚ := (instances : ℚ) * 730 * priceOf vm
    match get_disk_monthly_price fetch region disk_sku disk_redundancy currency with
    | none => .error (disk_error_msg disk_sku disk_redundancy region)
    | some disk =>
      let disk_month : ℚ := (instances : ℚ) * priceOf disk
      if 0 < interzone_gb then
        match find_interzone_bandwidth_rate fetch region currency with
        | some iz =>
          let iz_cost : ℚ := interzone_gb * priceOf iz
          .ok (vm_month + disk_month + iz_cost,
            [("compute_vm_month", vm_month), ("os_disks_month", disk_month),
              ("interzone_data_month", iz_cost)])
        | none =>
          .ok (vm_month + disk_month,
            [("compute_vm_month", vm_month), ("os_disks_month", disk_month),
              ("interzone_data_month", 0)])
      else
        .ok (vm_month + disk_month,
          [("compute_vm_month", vm_month), ("os_disks_month", disk_month)])

/-- The DR topology block of `main`: `dr_instances` is 0 except 1 for warm
and the primary count for hot; the disk count is the primary count for cold
and hot and 1 for warm. Returns `(dr_instances, disk_count)`. -/
def resolve_dr_topology (dr_mode : String) (instances : ℤ) : ℤ × ℤ :=
  let dr_instances : ℤ :=
    if dr_mode = "warm" then 1 else if dr_mode = "hot" then instances else 0
  let disk_count : ℤ := if dr_mode = "cold" ∨ dr_mode = "hot" then instances else 1
  (dr_instances, disk_count)

/-! ### Concrete fixtures used by the witnesses and counterexamples -/

/-- A regular Windows VM consumption record (hourly, no Spot), price 1.536. -/
def rec_vm : PriceRecord :=
  { type := some "Consumption", unitOfMeasure := some "1 Hour",
    productName := some "Virtual Machines Dv5 Series Windows",
    skuName := some "D8s v5", armSkuName := some "Standard_D8s_v5",
    meterName := some "D8s v5", retailPrice := some (mkRat 1536 1000) }

/-- A Spot variant of the same meter, higher priced. -/
def rec_spot : PriceRecord :=
  { type := some "Consumption", unitOfMeasure := some "1 Hour",
    productName := some "Virtual Machines Dv5 Series Windows",
    skuName := some "D8s v5 Spot", armSkuName := some "Standard_D8s_v5",
    meterName := some "D8s v5 Spot", retailPrice := some 5 }

/-- A P10 Premium SSD LRS monthly record, price 17.7. -/
def rec_disk : PriceRecord :=
  { type := some "Consumption", unitOfMeasure := some "1/Month",
    productName := some "Premium SSD Managed Disks",
    skuName := some "P10", armSkuName := none,
    meterName := some "P10 LRS Disk", retailPrice := some (mkRat 177 10) }

/-- A P10 Premium SSD ZRS monthly record, higher priced than the LRS one. -/
def rec_disk_zrs : PriceRecord :=
  { type := some "Consumption", unitOfMeasure := some "1/Month",
    productName := some "Premium SSD Managed Disks",
    skuName := some "P10", armSkuName := none,
    meterName := some "P10 ZRS Disk", retailPrice := some 23 }

/-- Two matching VM records that tie on price and differ elsewhere. -/
def rec_tie_a : PriceRecord :=
  { type := some "Consumption", unitOfMeasure := some "1 Hour",
    productName := some "Windows A", skuName := some "A", armSkuName := none,
    meterName := some "A", retailPrice := some 1 }

/-- See `rec_tie_a`. -/
def rec_tie_b : PriceRecord :=
  { type := some "Consumption", unitOfMeasure := some "1 Hour",
    productName := some "Windows B", skuName := some "B", armSkuName := none,
    meterName := some "B", retailPrice := some 1 }

/-- A matching VM record strictly more expensive than the tied pair. -/
def rec_two : PriceRecord :=
  { type := some "Consumption", unitOfMeasure := some "1 Hour",
    productName := some "Windows C", skuName := some "C", armSkuName := none,
    meterName := some "C", retailPrice := some 2 }


/-- The first (service family `Networking`) inter-zone `$filter` expression,
named for the statements below; `iz_filters` lists it first. -/
def net_filter_expr (region : String) : String :=
  "serviceFamily eq 'Networking' and armRegionName eq '" ++ region
    ++ "' and priceType eq 'Consumption'"

/-- The second (service name `Bandwidth`) inter-zone `$filter` expression;
`iz_filters` lists it second. -/
def bw_filter_expr (region : String) : String :=
  "serviceName eq 'Bandwidth' and armRegionName eq '" ++ region
    ++ "' and priceType eq 'Consumption'"

/-- Modelled from the spec's words, for comparison with the source's
`get_vm_hourly_price`: normalization said to lower-case the size and strip
one leading `standard_` prefix. -/
def normalize_size_claim (vm_size : String) : String :=
  if "standard_".data.isPrefixOf (lowerStr vm_size).data
  then ⟨(lowerStr vm_size).data.drop "standard_".data.length⟩
  else lowerStr vm_size

/-- Modelled from the spec's words: `get_vm_hourly_price` as the claim
describes it, narrowing by `normalize_size_claim` instead of the source's
replace-all-and-trim normalization. -/
def get_vm_hourly_price_claim (fetch : Fetch) (region vm_size : String) (windows : Bool)
    (currency : String) : Option PriceRecord :=
  let filtered :=
    (fetch (vm_filter_expr region) currency).filter (size_keeps (normalize_size_claim vm_size))
  if filtered.isEmpty then none else select_vm_price filtered windows

/-- Zone-labelled bandwidth candidate priced 0.01 per GB. -/
def rec_iz1 : PriceRecord :=
  { type := some "Consumption", unitOfMeasure := some "1 GB",
    productName := some "Bandwidth Inter-Zone", skuName := none, armSkuName := none,
    meterName := some "Inter-Zone Data Transfer In", retailPrice := some (mkRat 1 100) }

/-- Zone-labelled bandwidth candidate priced 0.02 per GB. -/
def rec_iz2 : PriceRecord :=
  { type := some "Consumption", unitOfMeasure := some "1 GB",
    productName := some "Bandwidth Inter-Zone", skuName := none, armSkuName := none,
    meterName := some "Inter-Zone Data Transfer Out", retailPrice := some (mkRat 1 50) }

/-- Zone-labelled bandwidth candidate priced 0.005 per GB, the cheapest. -/
def rec_iz3 : PriceRecord :=
  { type := some "Consumption", unitOfMeasure := some "1 GB",
    productName := some "Bandwidth Inter-Zone", skuName := none, armSkuName := none,
    meterName := some "Intra-Region Inter-Zone", retailPrice := some (mkRat 1 200) }

/-- An oracle whose Networking query returns the three zone-labelled
bandwidth candidates and whose other queries return nothing. -/
def fetch_iz : Fetch := fun f _ =>
  if f = net_filter_expr "eastus2" then [rec_iz1, rec_iz2, rec_iz3] else []

/-- The empty catalog: every query returns no records. -/
def fetch_empty : Fetch := fun _ _ => []

/-- An oracle holding a VM record pair for the broad `eastus2` VM query and
both disk tiers for the P10 storage query; no bandwidth records at all. -/
def fetch_vm_disk : Fetch := fun f _ =>
  if f = vm_filter_expr "eastus2" then [rec_spot, rec_vm]
  else if f = disk_filter_expr "eastus2" "P10" then [rec_disk_zrs, rec_disk]
  else []

/-- A VM record whose skuName `ab` is hit by the source's normalization of
`astandard_b` but not by the leading-prefix normalization the spec words
describe. -/
def rec_ab : PriceRecord :=
  { type := some "Consumption", unitOfMeasure := some "1 Hour",
    productName := some "Virtual Machines", skuName := some "ab", armSkuName := none,
    meterName := some "ab", retailPrice := some 1 }

/-- An oracle returning `rec_ab` for every query. -/
def fetch_ab : Fetch := fun _ _ => [rec_ab]

/-! ### Generic facts about the argmax/argmin selection -/

lemma argmaxAcc_eq_or_mem {α : Type} (f : α → ℚ) (l : List α) :
    ∀ b, argmaxAcc f b l = b ∨ argmaxAcc f b l ∈ l := by
  induction l with
  | nil => intro b; exact Or.inl rfl
  | cons x xs ih =>
    intro b
    simp only [argmaxAcc]
    rcases ih (if f b < f x then x else b) with h | h
    · rw [h]
      by_cases hbx : f b < f x
      · rw [if_pos hbx]; exact Or.inr (List.mem_cons_self _ _)
      · rw [if_neg hbx]; exact Or.inl rfl
    · exact Or.inr (List.mem_cons_of_mem _ h)

lemma le_argmaxAcc_base {α : Type} (f : α → ℚ) (l : List α) :
    ∀ b, f b ≤ f (argmaxAcc f b l) := by
  induction l with
  | nil => intro b; exact le_refl _
  | cons x xs ih =>
    intro b
    simp only [argmaxAcc]
    by_cases hbx : f b < f x
    · rw [if_pos hbx]
      exact le_trans (le_of_lt hbx) (ih x)
    · rw [if_neg hbx]
      exact ih b

lemma argmaxAcc_le {α : Type} (f : α → ℚ) (l : List α) :
    ∀ b, ∀ s ∈ l, f s ≤ f (argmaxAcc f b l) := by
  induction l with
  | nil => intro b s hs; cases hs
  | cons x xs ih =>
    intro b s hs
    simp only [argmaxAcc]
    rcases List.mem_cons.mp hs with rfl | hs
    · refine le_trans ?_ (le_argmaxAcc_base f xs (if f b < f s then s else b))
      by_cases hbx : f b < f s
      · rw [if_pos hbx]
      · rw [if_neg hbx]
        exact le_of_not_lt hbx
    · exact ih _ s hs

lemma argminAcc_eq_or_mem {α : Type} (f : α → ℚ) (l : List α) :
    ∀ b, argminAcc f b l = b ∨ argminAcc f b l ∈ l := by
  induction l with
  | nil => intro b; exact Or.inl rfl
  | cons x xs ih =>
    intro b
    simp only [argminAcc]
    rcases ih (if f x < f b then x else b) with h | h
    · rw [h]
      by_cases hbx : f x < f b
      · rw [if_pos hbx]; exact Or.inr (List.mem_cons_self _ _)
      · rw [if_neg hbx]; exact Or.inl rfl
    · exact Or.inr (List.mem_cons_of_mem _ h)

lemma argminAcc_base_le {α : Type} (f : α → ℚ) (l : List α) :
    ∀ b, f (argminAcc f b l) ≤ f b := by
  induction l with
  | nil => intro b; exact le_refl _
  | cons x xs ih =>
    intro b
    simp only [argminAcc]
    by_cases hbx : f x < f b
    · rw [if_pos hbx]
      exact le_trans (ih x) (le_of_lt hbx)
    · rw [if_neg hbx]
      exact ih b

lemma argminAcc_le {α : Type} (f : α → ℚ) (l : List α) :
    ∀ b, ∀ s ∈ l, f (argminAcc f b l) ≤ f s := by
  induction l with
  | nil => intro b s hs; cases hs
  | cons x xs ih =>
    intro b s hs
    simp only [argminAcc]
    rcases List.mem_cons.mp hs with rfl | hs
    · refine le_trans (argminAcc_base_le f xs (if f s < f b then s else b)) ?_
      by_cases hbx : f s < f b
      · rw [if_pos hbx]
      · rw [if_neg hbx]
        exact le_of_not_lt hbx
    · exact ih _ s hs

lemma pickMax_eq_none_iff {α : Type} (f : α → ℚ) (l : List α) :
    pickMax f l = none ↔ l = [] := by
  cases l <;> simp [pickMax]

lemma pickMax_mem {α : Type} {f : α → ℚ} {l : List α} {r : α}
    (h : pickMax f l = some r) : r ∈ l := by
  cases l with
  | nil => cases h
  | cons x xs =>
    simp only [pickMax, Option.some.injEq] at h
    subst h
    rcases argmaxAcc_eq_or_mem f xs x with h' | h'
    · rw [h']; exact List.mem_cons_self _ _
    · exact List.mem_cons_of_mem _ h'

lemma pickMax_le {α : Type} {f : α → ℚ} {l : List α} {r : α}
    (h : pickMax f l = some r) : ∀ s ∈ l, f s ≤ f r := by
  cases l with
  | nil => cases h
  | cons x xs =>
    simp only [pickMax, Option.some.injEq] at h
    subst h
    intro s hs
    rcases List.mem_cons.mp hs with rfl | hs
    · exact le_argmaxAcc_base f xs s
    · exact argmaxAcc_le f xs x s hs

lemma pickMin_mem {α : Type} {f : α → ℚ} {l : List α} {r : α}
    (h : pickMin f l = some r) : r ∈ l := by
  cases l with
  | nil => cases h
  | cons x xs =>
    simp only [pickMin, Option.some.injEq] at h
    subst h
    rcases argminAcc_eq_or_mem f xs x with h' | h'
    · rw [h']; exact List.mem_cons_self _ _
    · exact List.mem_cons_of_mem _ h'

lemma pickMin_le {α : Type} {f : α → ℚ} {l : List α} {r : α}
    (h : pickMin f l = some r) : ∀ s ∈ l, f r ≤ f s := by
  cases l with
  | nil => cases h
  | cons x xs =>
    simp only [pickMin, Option.some.injEq] at h
    subst h
    intro s hs
    rcases List.mem_cons.mp hs with rfl | hs
    · exact argminAcc_base_le f xs s
    · exact argminAcc_le f xs x s hs

/-! ### Characterization of the two record selectors -/

lemma select_vm_price_eq_none_iff (records : List PriceRecord) (w : Bool) :
    select_vm_price records w = none ↔ ∀ r ∈ records, vm_is_match w r = false := by
  unfold select_vm_price
  rw [pickMax_eq_none_iff]
  simp [List.filter_eq_nil_iff]

lemma select_vm_price_some {records : List PriceRecord} {w : Bool} {r : PriceRecord}
    (h : select_vm_price records w = some r) :
    r ∈ records ∧ vm_is_match w r = true ∧
      ∀ s ∈ records, vm_is_match w s = true → priceOf s ≤ priceOf r := by
  unfold select_vm_price at h
  have hmem := List.mem_filter.mp (pickMax_mem h)
  refine ⟨hmem.1, hmem.2, ?_⟩
  intro s hs hms
  exact pickMax_le h s (List.mem_filter.mpr ⟨hs, hms⟩)

lemma select_disk_price_eq_none_iff (records : List PriceRecord) (red : String) :
    select_disk_price records red = none ↔
      ∀ r ∈ records, disk_is_match (lowerStr red) r = false := by
  unfold select_disk_price
  rw [pickMax_eq_none_iff]
  simp [List.filter_eq_nil_iff]

lemma select_disk_price_some {records : List PriceRecord} {red : String} {r : PriceRecord}
    (h : select_disk_price records red = some r) :
    r ∈ records ∧ disk_is_match (lowerStr red) r = true ∧
      ∀ s ∈ records, disk_is_match (lowerStr red) s = true → priceOf s ≤ priceOf r := by
  unfold select_disk_price at h
  have hmem := List.mem_filter.mp (pickMax_mem h)
  refine ⟨hmem.1, hmem.2, ?_⟩
  intro s hs hms
  exact pickMax_le h s (List.mem_filter.mpr ⟨hs, hms⟩)

/-! ### C1 -/

/-- C1: `select_vm_price` returns `none` exactly when no record passes the
VM predicate (Consumption, hourly unit, `Windows` in the product name when
requested, no Spot or Low Priority meter), and otherwise returns a record
of the list that passes the predicate and whose `retailPrice` (a missing
price counting as 0.0) is maximal among all passing records. -/
theorem select_vm_price_correct (records : List PriceRecord) (windows : Bool) :
    (select_vm_price records windows = none ↔
        ∀ r ∈ records, vm_is_match windows r = false)
    ∧ ∀ r, select_vm_price records windows = some r →
        r ∈ records ∧ vm_is_match windows r = true ∧
          ∀ s ∈ records, vm_is_match windows s = true → priceOf s ≤ priceOf r :=
  ⟨select_vm_price_eq_none_iff records windows, fun _ h => select_vm_price_some h⟩

/-- Witness for C1 at a concrete record set: the Spot record is passed
over and the regular record is selected, passing and price-maximal. -/
theorem select_vm_price_correct_witness :
    rec_vm ∈ [rec_spot, rec_vm] ∧ vm_is_match true rec_vm = true ∧
      ∀ s ∈ [rec_spot, rec_vm], vm_is_match true s = true → priceOf s ≤ priceOf rec_vm :=
  (select_vm_price_correct [rec_spot, rec_vm] true).2 rec_vm (by decide)

/-! ### C2 -/

/-- C2 counterexample: two otherwise identical matching records tie on
`retailPrice`; swapping them swaps the selected record, so the claim
"`select_vm_price` returns the same record on every permutation of its
input" is false as stated. -/
theorem select_vm_price_perm_counterexample :
    List.Perm [rec_tie_a, rec_tie_b] [rec_tie_b, rec_tie_a]
      ∧ select_vm_price [rec_tie_a, rec_tie_b] true
          ≠ select_vm_price [rec_tie_b, rec_tie_a] true :=
  ⟨List.Perm.swap rec_tie_b rec_tie_a [], by decide⟩

/-- C2 (amended): on a permutation of the record list, `select_vm_price`
returns `none` exactly when it did before, and any two returned records
have equal `retailPrice` (a missing price counting as 0.0); when exactly
one passing record attains that maximal price, the very same record is
returned. -/
theorem select_vm_price_perm_invariant (l l' : List PriceRecord) (w : Bool)
    (hp : l.Perm l') :
    (select_vm_price l w = none ↔ select_vm_price l' w = none)
    ∧ ∀ r r', select_vm_price l w = some r → select_vm_price l' w = some r' →
        priceOf r = priceOf r'
          ∧ ((∀ s ∈ l, vm_is_match w s = true → priceOf s = priceOf r → s = r) → r = r') := by
  constructor
  · rw [select_vm_price_eq_none_iff, select_vm_price_eq_none_iff]
    exact ⟨fun h r hr => h r (hp.mem_iff.mpr hr), fun h r hr => h r (hp.mem_iff.mp hr)⟩
  · intro r r' hr hr'
    obtain ⟨hrl, hrm, hrmax⟩ := select_vm_price_some hr
    obtain ⟨hrl', hrm', hrmax'⟩ := select_vm_price_some hr'
    have h1 : priceOf r' ≤ priceOf r := hrmax r' (hp.mem_iff.mpr hrl') hrm'
    have h2 : priceOf r ≤ priceOf r' := hrmax' r (hp.mem_iff.mp hrl) hrm
    have heq : priceOf r = priceOf r' := le_antisymm h2 h1
    exact ⟨heq, fun huniq => (huniq r' (hp.mem_iff.mpr hrl') hrm' heq.symm).symm⟩

/-- Witness for C2 (amended) at a concrete pair of permuted lists whose
passing records have distinct prices: both orderings select `rec_two`. -/
theorem select_vm_price_perm_invariant_witness :
    priceOf rec_two = priceOf rec_two
      ∧ ((∀ s ∈ [rec_tie_a, rec_two], vm_is_match true s = true →
            priceOf s = priceOf rec_two → s = rec_two) → rec_two = rec_two) :=
  (select_vm_price_perm_invariant [rec_tie_a, rec_two] [rec_two, rec_tie_a] true
      (List.Perm.swap rec_two rec_tie_a [])).2 rec_two rec_two (by decide) (by decide)

/-! ### C3 -/

lemma disk_is_match_iff {red : String}
    (hred : lowerStr red = "lrs" ∨ lowerStr red = "zrs") (r : PriceRecord) :
    disk_is_match (lowerStr red) r = true ↔
      (r.type = some "Consumption"
        ∧ strHas (lowerStr (r.unitOfMeasure.getD "")) "month" = true
        ∧ strHas (r.productName.getD "") "Premium SSD Managed Disks" = true
        ∧ strHas (lowerStr (r.meterName.getD "")) (lowerStr red) = true) := by
  rcases hred with h | h <;> rw [h] <;>
    simp [disk_is_match, Bool.and_eq_true, Bool.or_eq_true, and_assoc]

/-- C3: for a requested redundancy whose lower-casing is `lrs` or `zrs`,
`select_disk_price` returns `none` exactly when no record is a Consumption
record with a monthly unit, `Premium SSD Managed Disks` in the product name
and the requested redundancy code in the meter name (case-insensitively);
otherwise it returns such a record of maximal `retailPrice`. In particular
the returned record's meter name always contains the requested code: there
is no fallback to the other tier. -/
theorem select_disk_price_correct (records : List PriceRecord) (red : String)
    (hred : lowerStr red = "lrs" ∨ lowerStr red = "zrs") :
    (select_disk_price records red = none ↔
        ∀ r ∈ records, ¬(r.type = some "Consumption"
          ∧ strHas (lowerStr (r.unitOfMeasure.getD "")) "month" = true
          ∧ strHas (r.productName.getD "") "Premium SSD Managed Disks" = true
          ∧ strHas (lowerStr (r.meterName.getD "")) (lowerStr red) = true))
    ∧ ∀ r, select_disk_price records red = some r →
        r ∈ records
          ∧ r.type = some "Consumption"
          ∧ strHas (lowerStr (r.unitOfMeasure.getD "")) "month" = true
          ∧ strHas (r.productName.getD "") "Premium SSD Managed Disks" = true
          ∧ strHas (lowerStr (r.meterName.getD "")) (lowerStr red) = true
          ∧ ∀ s ∈ records, disk_is_match (lowerStr red) s = true →
              priceOf s ≤ priceOf r := by
  constructor
  · rw [select_disk_price_eq_none_iff]
    constructor
    · intro h r hr
      rw [← disk_is_match_iff hred r, h r hr]
      simp
    · intro h r hr
      rw [← Bool.not_eq_true, disk_is_match_iff hred r]
      exact h r hr
  · intro r hsel
    obtain ⟨hmem, hmatch, hmax⟩ := select_disk_price_some hsel
    obtain ⟨h1, h2, h3, h4⟩ := (disk_is_match_iff hred r).mp hmatch
    exact ⟨hmem, h1, h2, h3, h4, hmax⟩

/-- Witness for C3 with redundancy requested as `LRS` (case-insensitive)
against a set holding both tiers: the LRS record is selected, its meter
name names `lrs`, and it is price-maximal among matching records. -/
theorem select_disk_price_correct_witness :
    rec_disk ∈ [rec_disk_zrs, rec_disk]
      ∧ rec_disk.type = some "Consumption"
      ∧ strHas (lowerStr (rec_disk.unitOfMeasure.getD "")) "month" = true
      ∧ strHas (rec_disk.productName.getD "") "Premium SSD Managed Disks" = true
      ∧ strHas (lowerStr (rec_disk.meterName.getD "")) (lowerStr "LRS") = true
      ∧ ∀ s ∈ [rec_disk_zrs, rec_disk], disk_is_match (lowerStr "LRS") s = true →
          priceOf s ≤ priceOf rec_disk :=
  (select_disk_price_correct [rec_disk_zrs, rec_disk] "LRS" (by decide)).2 rec_disk
    (by decide)

/-! ### C4 -/

lemma find_iz_eq (fetch : Fetch) (region currency : String) :
    find_interzone_bandwidth_rate fetch region currency =
      match (fetch (net_filter_expr region) currency).filter iz_candidate with
      | [] =>
        match (fetch (bw_filter_expr region) currency).filter iz_candidate with
        | [] => none
        | c :: cs => some (argminAcc priceOf c cs)
      | c :: cs => some (argminAcc priceOf c cs) := rfl

lemma find_iz_first {fetch : Fetch} {region currency : String} {c : PriceRecord}
    {cs : List PriceRecord}
    (h1 : (fetch (net_filter_expr region) currency).filter iz_candidate = c :: cs) :
    find_interzone_bandwidth_rate fetch region currency = pickMin priceOf (c :: cs) := by
  rw [find_iz_eq, h1]
  rfl

lemma find_iz_second {fetch : Fetch} {region currency : String} {c : PriceRecord}
    {cs : List PriceRecord}
    (h1 : (fetch (net_filter_expr region) currency).filter iz_candidate = [])
    (h2 : (fetch (bw_filter_expr region) currency).filter iz_candidate = c :: cs) :
    find_interzone_bandwidth_rate fetch region currency = pickMin priceOf (c :: cs) := by
  rw [find_iz_eq, h1]
  rw [h2]
  rfl

lemma find_iz_none_iff (fetch : Fetch) (region currency : String) :
    find_interzone_bandwidth_rate fetch region currency = none ↔
      (fetch (net_filter_expr region) currency).filter iz_candidate = []
        ∧ (fetch (bw_filter_expr region) currency).filter iz_candidate = [] := by
  rw [find_iz_eq]
  cases h1 : (fetch (net_filter_expr region) currency).filter iz_candidate with
  | nil =>
    cases h2 : (fetch (bw_filter_expr region) currency).filter iz_candidate with
    | nil => simp
    | cons c cs => simp
  | cons c cs => simp

/-- C4: `find_interzone_bandwidth_rate` tries its two catalog queries in a
fixed order (service family `Networking` first, then service name
`Bandwidth`); each query's records are filtered by `iz_candidate` (GB unit,
bandwidth product, zone-labelled meter, case-insensitively); the result is
`none` exactly when both candidate lists are empty; when the first query
yields candidates the result is a lowest-priced one of them, and the second
query's results are never consulted; when only the second yields candidates
the result is a lowest-priced one of those. -/
theorem find_interzone_bandwidth_rate_correct (fetch fetch' : Fetch)
    (region currency : String) :
    iz_filters region = [net_filter_expr region, bw_filter_expr region]
    ∧ (find_interzone_bandwidth_rate fetch region currency = none ↔
        (fetch (net_filter_expr region) currency).filter iz_candidate = []
          ∧ (fetch (bw_filter_expr region) currency).filter iz_candidate = [])
    ∧ (∀ r, (fetch (net_filter_expr region) currency).filter iz_candidate ≠ [] →
        find_interzone_bandwidth_rate fetch region currency = some r →
        r ∈ (fetch (net_filter_expr region) currency).filter iz_candidate
          ∧ ∀ s ∈ (fetch (net_filter_expr region) currency).filter iz_candidate,
              priceOf r ≤ priceOf s)
    ∧ ((fetch (net_filter_expr region) currency).filter iz_candidate ≠ [] →
        fetch (net_filter_expr region) currency = fetch' (net_filter_expr region) currency →
        find_interzone_bandwidth_rate fetch region currency
          = find_interzone_bandwidth_rate fetch' region currency)
    ∧ (∀ r, (fetch (net_filter_expr region) currency).filter iz_candidate = [] →
        find_interzone_bandwidth_rate fetch region currency = some r →
        r ∈ (fetch (bw_filter_expr region) currency).filter iz_candidate
          ∧ ∀ s ∈ (fetch (bw_filter_expr region) currency).filter iz_candidate,
              priceOf r ≤ priceOf s) := by
  refine ⟨rfl, find_iz_none_iff fetch region currency, ?_, ?_, ?_⟩
  · intro r hne hr
    cases h1 : (fetch (net_filter_expr region) currency).filter iz_candidate with
    | nil => exact absurd h1 hne
    | cons c cs =>
      rw [find_iz_first h1] at hr
      exact ⟨pickMin_mem hr, pickMin_le hr⟩
  · intro hne heq
    cases h1 : (fetch (net_filter_expr region) currency).filter iz_candidate with
    | nil => exact absurd h1 hne
    | cons c cs =>
      have h1' : (fetch' (net_filter_expr region) currency).filter iz_candidate = c :: cs := by
        rw [← heq]; exact h1
      rw [find_iz_first h1, find_iz_first h1']
  · intro r h1 hr
    cases h2 : (fetch (bw_filter_expr region) currency).filter iz_candidate with
    | nil =>
      rw [(find_iz_none_iff fetch region currency).mpr ⟨h1, h2⟩] at hr
      cases hr
    | cons c cs =>
      rw [find_iz_second h1 h2] at hr
      exact ⟨pickMin_mem hr, pickMin_le hr⟩

/-- Witness for C4 on the spec's own example: three zone-labelled
candidates priced 0.01, 0.02 and 0.005 in the first query; the 0.005 record
is returned and is minimal. -/
theorem find_interzone_bandwidth_rate_correct_witness :
    rec_iz3 ∈ (fetch_iz (net_filter_expr "eastus2") "USD").filter iz_candidate
      ∧ ∀ s ∈ (fetch_iz (net_filter_expr "eastus2") "USD").filter iz_candidate,
          priceOf rec_iz3 ≤ priceOf s :=
  (find_interzone_bandwidth_rate_correct fetch_iz fetch_iz "eastus2" "USD").2.2.1 rec_iz3
    (by decide) (by decide)

/-! ### C5 -/

/-- C5: DR topology resolution: cold keeps no DR compute but the primary's
disk count, warm keeps one of each, hot mirrors the primary count for both. -/
theorem resolve_dr_topology_correct (n : ℤ) (_hn : 0 ≤ n) :
    resolve_dr_topology "cold" n = (0, n)
      ∧ resolve_dr_topology "warm" n = (1, 1)
      ∧ resolve_dr_topology "hot" n = (n, n) := by
  refine ⟨?_, ?_, ?_⟩ <;> simp [resolve_dr_topology]

/-- Witness for C5 at the spec's example `instances = 4`. -/
theorem resolve_dr_topology_correct_witness :
    resolve_dr_topology "cold" 4 = (0, 4)
      ∧ resolve_dr_topology "warm" 4 = (1, 1)
      ∧ resolve_dr_topology "hot" 4 = (4, 4) :=
  resolve_dr_topology_correct 4 (by decide)

/-! ### C6 -/

/-- C6: when VM price selection finds nothing, `compute_primary_costs`
fails with the VM pricing-not-found error, and when the VM price is found
but disk selection finds nothing it fails with the disk pricing-not-found
error; in both cases the result is an error, so no breakdown and no total
are produced. -/
theorem compute_primary_costs_hard_failure (fetch : Fetch) (region vm_size : String)
    (windows : Bool) (instances : ℤ) (disk_sku disk_redundancy currency : String)
    (interzone_gb : ℚ) :
    (get_vm_hourly_price fetch region vm_size windows currency = none →
      compute_primary_costs fetch region vm_size windows instances disk_sku
          disk_redundancy currency interzone_gb
        = Except.error (vm_error_msg vm_size region windows))
    ∧ ∀ vm, get_vm_hourly_price fetch region vm_size windows currency = some vm →
        get_disk_monthly_price fetch region disk_sku disk_redundancy currency = none →
        compute_primary_costs fetch region vm_size windows instances disk_sku
            disk_redundancy currency interzone_gb
          = Except.error (disk_error_msg disk_sku disk_redundancy region) := by
  constructor
  · intro h
    unfold compute_primary_costs
    rw [h]
  · intro vm hv hd
    unfold compute_primary_costs
    rw [hv, hd]

/-- Witness for C6 on the empty catalog: the VM lookup fails and the
aggregator returns the VM error. -/
theorem compute_primary_costs_hard_failure_witness :
    compute_primary_costs fetch_empty "eastus2" "D8s v5" true 2 "P10" "lrs" "USD" 0
      = Except.error (vm_error_msg "D8s v5" "eastus2" true) :=
  (compute_primary_costs_hard_failure fetch_empty "eastus2" "D8s v5" true 2 "P10" "lrs"
      "USD" 0).1 (by decide)

/-! ### C7 -/

/-- C7: with a positive inter-zone GB figure and no inter-zone candidate,
the breakdown carries `interzone_data_month` mapped to exactly 0 and the
total is just the VM and disk components; with a zero GB figure the
inter-zone key is absent and the result does not depend on anything but the
VM and disk queries (the inter-zone rate is not resolved at all). -/
theorem compute_primary_costs_interzone (fetch fetch' : Fetch) (region vm_size : String)
    (windows : Bool) (instances : ℤ) (disk_sku disk_redundancy currency : String)
    (interzone_gb : ℚ) :
    (∀ vm disk, 0 < interzone_gb →
      get_vm_hourly_price fetch region vm_size windows currency = some vm →
      get_disk_monthly_price fetch region disk_sku disk_redundancy currency = some disk →
      find_interzone_bandwidth_rate fetch region currency = none →
      compute_primary_costs fetch region vm_size windows instances disk_sku
          disk_redundancy currency interzone_gb
        = Except.ok ((instances : ℚ) * 730 * priceOf vm + (instances : ℚ) * priceOf disk,
            [("compute_vm_month", (instances : ℚ) * 730 * priceOf vm),
              ("os_disks_month", (instances : ℚ) * priceOf disk),
              ("interzone_data_month", 0)]))
    ∧ (∀ t d, compute_primary_costs fetch region vm_size windows instances disk_sku
          disk_redundancy currency 0 = Except.ok (t, d) →
        d.lookup "interzone_data_month" = none)
    ∧ (fetch (vm_filter_expr region) currency = fetch' (vm_filter_expr region) currency →
        fetch (disk_filter_expr region disk_sku) currency
          = fetch' (disk_filter_expr region disk_sku) currency →
        compute_primary_costs fetch region vm_size windows instances disk_sku
            disk_redundancy currency 0
          = compute_primary_costs fetch' region vm_size windows instances disk_sku
              disk_redundancy currency 0) := by
  refine ⟨?_, ?_, ?_⟩
  · intro vm disk hgb hv hd hiz
    unfold compute_primary_costs
    rw [hv]
    dsimp only
    rw [hd]
    dsimp only
    rw [if_pos hgb, hiz]
  · intro t d hok
    unfold compute_primary_costs at hok
    cases hv : get_vm_hourly_price fetch region vm_size windows currency with
    | none => rw [hv] at hok; exact Except.noConfusion hok
    | some vm =>
      rw [hv] at hok
      cases hd : get_disk_monthly_price fetch region disk_sku disk_redundancy currency with
      | none => rw [hd] at hok; exact Except.noConfusion hok
      | some disk =>
        dsimp only at hok
        rw [hd] at hok
        dsimp only at hok
        rw [if_neg (lt_irrefl (0 : ℚ))] at hok
        injection hok with hpair
        obtain ⟨ht, hd2⟩ := Prod.mk.inj hpair
        rw [← hd2]
        rfl
  · intro h1 h2
    have hveq : get_vm_hourly_price fetch region vm_size windows currency
        = get_vm_hourly_price fetch' region vm_size windows currency := by
      unfold get_vm_hourly_price
      rw [h1]
    have hdeq : get_disk_monthly_price fetch region disk_sku disk_redundancy currency
        = get_disk_monthly_price fetch' region disk_sku disk_redundancy currency := by
      unfold get_disk_monthly_price
      rw [h2]
    unfold compute_primary_costs
    rw [hveq, hdeq]
    cases get_vm_hourly_price fetch' region vm_size windows currency with
    | none => rfl
    | some vm =>
      cases get_disk_monthly_price fetch' region disk_sku disk_redundancy currency with
      | none => rfl
      | some disk =>
        dsimp only
        rw [if_neg (lt_irrefl (0 : ℚ)), if_neg (lt_irrefl (0 : ℚ))]

/-- Witness for C7: a catalog with VM and disk prices but no bandwidth
records, requested inter-zone GB of 1: the run succeeds with the inter-zone
component recorded as exactly 0. -/
theorem compute_primary_costs_interzone_witness :
    compute_primary_costs fetch_vm_disk "eastus2" "D8s v5" true 2 "P10" "lrs" "USD" 1
      = Except.ok (((2 : ℤ) : ℚ) * 730 * priceOf rec_vm + ((2 : ℤ) : ℚ) * priceOf rec_disk,
          [("compute_vm_month", ((2 : ℤ) : ℚ) * 730 * priceOf rec_vm),
            ("os_disks_month", ((2 : ℤ) : ℚ) * priceOf rec_disk),
            ("interzone_data_month", 0)]) :=
  (compute_primary_costs_interzone fetch_vm_disk fetch_vm_disk "eastus2" "D8s v5" true 2
      "P10" "lrs" "USD" 1).1 rec_vm rec_disk (by decide) (by decide) (by decide) (by decide)

/-! ### C8 -/

/-- C8: whenever the aggregator succeeds having selected a VM record, the
`compute_vm_month` component equals `instances × 730 × unit price` (the
unit price of the selected record, a missing price counting as 0.0); in
particular it is 0 for an instance count of 0. -/
theorem compute_vm_month_formula (fetch : Fetch) (region vm_size : String) (windows : Bool)
    (instances : ℤ) (disk_sku disk_redundancy currency : String) (interzone_gb : ℚ) :
    ∀ vm, get_vm_hourly_price fetch region vm_size windows currency = some vm →
      ∀ t d, compute_primary_costs fetch region vm_size windows instances disk_sku
          disk_redundancy currency interzone_gb = Except.ok (t, d) →
        d.lookup "compute_vm_month" = some ((instances : ℚ) * 730 * priceOf vm)
          ∧ (instances = 0 → d.lookup "compute_vm_month" = some 0) := by
  intro vm hv t d hok
  unfold compute_primary_costs at hok
  rw [hv] at hok
  dsimp only at hok
  have key : d.lookup "compute_vm_month" = some ((instances : ℚ) * 730 * priceOf vm) := by
    cases hd : get_disk_monthly_price fetch region disk_sku disk_redundancy currency with
    | none => rw [hd] at hok; exact Except.noConfusion hok
    | some disk =>
      rw [hd] at hok
      dsimp only at hok
      by_cases hgb : 0 < interzone_gb
      · rw [if_pos hgb] at hok
        cases hiz : find_interzone_bandwidth_rate fetch region currency with
        | none =>
          rw [hiz] at hok
          dsimp only at hok
          injection hok with hpair
          obtain ⟨ht, hd2⟩ := Prod.mk.inj hpair
          rw [← hd2]
          rfl
        | some iz =>
          rw [hiz] at hok
          dsimp only at hok
          injection hok with hpair
          obtain ⟨ht, hd2⟩ := Prod.mk.inj hpair
          rw [← hd2]
          rfl
      · rw [if_neg hgb] at hok
        injection hok with hpair
        obtain ⟨ht, hd2⟩ := Prod.mk.inj hpair
        rw [← hd2]
        rfl
  refine ⟨key, ?_⟩
  intro h0
  rw [key, h0]
  norm_num

/-- Witness for C8 at the spec's example: 2 instances at unit price 1.536
give a `compute_vm_month` of 2,242.56. -/
theorem compute_vm_month_formula_witness :
    (List.lookup "compute_vm_month"
        [("compute_vm_month", ((2 : ℤ) : ℚ) * 730 * priceOf rec_vm),
          ("os_disks_month", ((2 : ℤ) : ℚ) * priceOf rec_disk)]
      = some (((2 : ℤ) : ℚ) * 730 * priceOf rec_vm)
      ∧ ((2 : ℤ) = 0 → List.lookup "compute_vm_month"
          [("compute_vm_month", ((2 : ℤ) : ℚ) * 730 * priceOf rec_vm),
            ("os_disks_month", ((2 : ℤ) : ℚ) * priceOf rec_disk)] = some 0))
    ∧ ((2 : ℤ) : ℚ) * 730 * priceOf rec_vm = 2242.56 := by
  constructor
  · exact compute_vm_month_formula fetch_vm_disk "eastus2" "D8s v5" true 2 "P10" "lrs"
      "USD" 0 rec_vm (by decide)
      (((2 : ℤ) : ℚ) * 730 * priceOf rec_vm + ((2 : ℤ) : ℚ) * priceOf rec_disk)
      [("compute_vm_month", ((2 : ℤ) : ℚ) * 730 * priceOf rec_vm),
        ("os_disks_month", ((2 : ℤ) : ℚ) * priceOf rec_disk)] rfl
  · rw [show priceOf rec_vm = mkRat 1536 1000 from rfl, Rat.mkRat_eq_div]
    norm_num

/-! ### C9 -/

/-- C9 counterexample: for the size `astandard_b` the source keeps a record
with skuName `ab` (its normalization deletes the inner `standard_`), while
the claimed leading-prefix normalization keeps nothing; the two getters
disagree on this input, so the claim is false as stated. -/
theorem get_vm_hourly_price_claim_counterexample :
    get_vm_hourly_price fetch_ab "eastus2" "astandard_b" false "USD" = some rec_ab
      ∧ get_vm_hourly_price_claim fetch_ab "eastus2" "astandard_b" false "USD" = none := by
  constructor <;> decide

/-- C9 (amended): `get_vm_hourly_price` normalizes the size by lower-casing,
deleting every occurrence of `standard_` (not only a leading one) and
trimming surrounding whitespace; it keeps exactly the fetched records whose
skuName or armSkuName contains the normalized size case-insensitively,
returns `none` when nothing survives, and otherwise delegates the choice to
`select_vm_price`. -/
theorem get_vm_hourly_price_correct (fetch : Fetch) (region vm_size : String)
    (windows : Bool) (currency : String) :
    (∀ r, r ∈ (fetch (vm_filter_expr region) currency).filter
          (size_keeps (normalize_size vm_size)) ↔
        (r ∈ fetch (vm_filter_expr region) currency
          ∧ (strHas (lowerStr (r.skuName.getD ""))
                (trimStr ⟨removeAll "standard_".data (lowerStr vm_size).data⟩) = true
              ∨ strHas (lowerStr (r.armSkuName.getD ""))
                (trimStr ⟨removeAll "standard_".data (lowerStr vm_size).data⟩) = true)))
    ∧ ((fetch (vm_filter_expr region) currency).filter
          (size_keeps (normalize_size vm_size)) = [] →
        get_vm_hourly_price fetch region vm_size windows currency = none)
    ∧ ((fetch (vm_filter_expr region) currency).filter
          (size_keeps (normalize_size vm_size)) ≠ [] →
        get_vm_hourly_price fetch region vm_size windows currency
          = select_vm_price ((fetch (vm_filter_expr region) currency).filter
              (size_keeps (normalize_size vm_size))) windows) := by
  refine ⟨?_, ?_, ?_⟩
  · intro r
    rw [List.mem_filter]
    constructor
    · rintro ⟨h1, h2⟩
      refine ⟨h1, ?_⟩
      rw [← Bool.or_eq_true]
      exact h2
    · rintro ⟨h1, h2⟩
      refine ⟨h1, ?_⟩
      show size_keeps (normalize_size vm_size) r = true
      unfold size_keeps
      rw [Bool.or_eq_true]
      exact h2
  · intro h
    unfold get_vm_hourly_price
    rw [h]
    rfl
  · intro h
    cases hf : (fetch (vm_filter_expr region) currency).filter
        (size_keeps (normalize_size vm_size)) with
    | nil => exact absurd hf h
    | cons x xs =>
      unfold get_vm_hourly_price
      rw [hf]
      rfl

/-- Witness for C9 (amended): on a non-empty narrowing the getter agrees
with the delegated selection. -/
theorem get_vm_hourly_price_correct_witness :
    get_vm_hourly_price fetch_vm_disk "eastus2" "D8s v5" true "USD"
      = select_vm_price ((fetch_vm_disk (vm_filter_expr "eastus2") "USD").filter
          (size_keeps (normalize_size "D8s v5"))) true :=
  (get_vm_hourly_price_correct fetch_vm_disk "eastus2" "D8s v5" true "USD").2.2 (by decide)

/-! ### C10 -/

/-- C10: whenever `compute_primary_costs` succeeds, the returned total is
exactly the sum of the values of the returned breakdown. -/
theorem compute_primary_costs_total_eq_sum (fetch : Fetch) (region vm_size : String)
    (windows : Bool) (instances : ℤ) (disk_sku disk_redundancy currency : String)
    (interzone_gb : ℚ) :
    ∀ t d, compute_primary_costs fetch region vm_size windows instances disk_sku
        disk_redundancy currency interzone_gb = Except.ok (t, d) →
      t = (d.map Prod.snd).sum := by
  intro t d hok
  unfold compute_primary_costs at hok
  cases hv : get_vm_hourly_price fetch region vm_size windows currency with
  | none => rw [hv] at hok; exact Except.noConfusion hok
  | some vm =>
    rw [hv] at hok
    dsimp only at hok
    cases hd : get_disk_monthly_price fetch region disk_sku disk_redundancy currency with
    | none => rw [hd] at hok; exact Except.noConfusion hok
    | some disk =>
      rw [hd] at hok
      dsimp only at hok
      by_cases hgb : 0 < interzone_gb
      · rw [if_pos hgb] at hok
        cases hiz : find_interzone_bandwidth_rate fetch region currency with
        | none =>
          rw [hiz] at hok
          dsimp only at hok
          injection hok with hpair
          obtain ⟨ht, hd2⟩ := Prod.mk.inj hpair
          rw [← ht, ← hd2]
          simp only [List.map_cons, List.map_nil, List.sum_cons, List.sum_nil, add_zero]
        | some iz =>
          rw [hiz] at hok
          dsimp only at hok
          injection hok with hpair
          obtain ⟨ht, hd2⟩ := Prod.mk.inj hpair
          rw [← ht, ← hd2]
          simp only [List.map_cons, List.map_nil, List.sum_cons, List.sum_nil, add_zero]
          ring
      · rw [if_neg hgb] at hok
        injection hok with hpair
        obtain ⟨ht, hd2⟩ := Prod.mk.inj hpair
        rw [← ht, ← hd2]
        simp only [List.map_cons, List.map_nil, List.sum_cons, List.sum_nil, add_zero]

/-- Witness for C10 on a successful concrete run. -/
theorem compute_primary_costs_total_eq_sum_witness :
    ((2 : ℤ) : ℚ) * 730 * priceOf rec_vm + ((2 : ℤ) : ℚ) * priceOf rec_disk
      = (List.map Prod.snd
          [("compute_vm_month", ((2 : ℤ) : ℚ) * 730 * priceOf rec_vm),
            ("os_disks_month", ((2 : ℤ) : ℚ) * priceOf rec_disk)]).sum :=
  compute_primary_costs_total_eq_sum fetch_vm_disk "eastus2" "D8s v5" true 2 "P10" "lrs"
    "USD" 0
    (((2 : ℤ) : ℚ) * 730 * priceOf rec_vm + ((2 : ℤ) : ℚ) * priceOf rec_disk)
    [("compute_vm_month", ((2 : ℤ) : ℚ) * 730 * priceOf rec_vm),
      ("os_disks_month", ((2 : ℤ) : ℚ) * priceOf rec_disk)] rfl

end AzureVmZoneCosts
